import Mathlib

/-!
Verification of the ROI-negotiation and downsampling node of the gunpowder
pipeline (`src/gunpowder/nodes/downsample.py`).

The `DownSample` node itself (`prepare`, `process`, `__scale_roi`) is
translated directly from the source.  The ROI/Coordinate/Volume primitives
(`Roi`, `get_center`, scaling, union, containment) live in repository files
that are not part of `src/`; they are modelled from the specification's
description of their contracts (spec sections 2, 3 and 4.1).  Coordinates are
integer vectors (`List Int`); integer division follows Python's floor
division.  Dense arrays are modelled as a shape together with a value
function on integer index vectors; slicing follows numpy semantics
(clamping of slice bounds to the actual array extent; negative-index
wrap-around is not modelled, as every slice the node performs starts at a
non-negative offset once the containment assertion has passed).
-/

set_option autoImplicit false

/-- Modelled from the spec: coordinates are immutable n-dimensional integer
vectors with componentwise arithmetic (spec section 2, "Coordinate"). -/
def cAdd (a b : List Int) : List Int := List.zipWith (fun x y => x + y) a b

/-- Modelled from the spec: componentwise subtraction of coordinates. -/
def cSub (a b : List Int) : List Int := List.zipWith (fun x y => x - y) a b

/-- Modelled from the spec: componentwise product of two coordinates. -/
def cMulV (a b : List Int) : List Int := List.zipWith (fun x y => x * y) a b

/-- Modelled from the spec: halving a coordinate with Python floor division,
used for the center computation `offset + shape/2` (spec section 4.1). -/
def cHalf (a : List Int) : List Int := a.map (fun x => Int.fdiv x 2)

/-- Modelled from the spec: an ROI is an axis-aligned box given by an offset
coordinate and a shape coordinate (spec section 3). -/
structure Roi where
  offset : List Int
  shape : List Int
deriving DecidableEq

/-- A downsampling factor is either a single integer applied to every
dimension or a per-dimension vector of integers, mirroring the dynamic
"number or tuple" typing of the source constructor. -/
inductive Factor where
  | uniform (k : Int)
  | perdim (ks : List Int)
deriving DecidableEq

/-- Modelled from the spec: multiplying a coordinate by a factor, either a
scalar applied to every component or componentwise by a vector. -/
def cMulF (a : List Int) : Factor → List Int
  | Factor.uniform k => a.map (fun x => x * k)
  | Factor.perdim ks => cMulV a ks

/-- Modelled from the spec: `scale(roi, factor)` multiplies both offset and
shape by the factor componentwise (spec section 4.1). -/
def roiMul (r : Roi) (f : Factor) : Roi :=
  { offset := cMulF r.offset f, shape := cMulF r.shape f }

/-- Modelled from the spec: `center(roi)` returns `offset + shape/2` in
integer arithmetic (spec section 4.1). -/
def getCenter (r : Roi) : List Int := cAdd r.offset (cHalf r.shape)

/-- Modelled from the spec: translating an ROI by subtracting a coordinate
from its offset, keeping the shape (used as `scaled_roi - (...)`). -/
def roiShiftNeg (r : Roi) (c : List Int) : Roi :=
  { offset := cSub r.offset c, shape := r.shape }

/-- Modelled from the spec: the exclusive upper corner `offset + shape`. -/
def roiEnd (r : Roi) : List Int := cAdd r.offset r.shape

/-- All components of the first coordinate are at most the corresponding
components of the second (componentwise comparison over the common dims). -/
def leAll (a b : List Int) : Bool := (List.zip a b).all (fun q => q.1 ≤ q.2)

/-- Modelled from the spec: `contains(a, b)` holds iff every coordinate of
`b` lies within `a` (spec section 4.1): `b` begins no earlier and ends no
later than `a` in every dimension. -/
def roiContains (a b : Roi) : Bool :=
  leAll a.offset b.offset && leAll (roiEnd b) (roiEnd a)

/-- Modelled from the spec: `union(a, b)` is the smallest ROI containing
both boxes: componentwise minimum of offsets and maximum of ends. -/
def roiUnion (a b : Roi) : Roi :=
  let o := List.zipWith (fun x y => min x y) a.offset b.offset
  let e := List.zipWith (fun x y => max x y) (roiEnd a) (roiEnd b)
  { offset := o, shape := cSub e o }

/-- Translated from the source (`DownSample.__scale_roi`): scale the ROI by
the factor, then translate the result so its center coincides with the
center of the original ROI. -/
def scaleRoi (r : Roi) (f : Factor) : Roi :=
  let prevCenter := getCenter r
  let scaled := roiMul r f
  let newCenter := getCenter scaled
  roiShiftNeg scaled (cSub newCenter prevCenter)

/-- Association-list lookup keyed by volume-type identifiers (Python dict
read `m[k]` / membership test). -/
def lookupK {β : Type} : List (Nat × β) → Nat → Option β
  | [], _ => none
  | (k, v) :: rest, q => if k = q then some v else lookupK rest q

/-- Association-list update (Python dict write `m[k] = v`): replaces the
entry when the key is present, appends it otherwise. -/
def setK {β : Type} : List (Nat × β) → Nat → β → List (Nat × β)
  | [], k, v => [(k, v)]
  | (k0, v0) :: rest, k, v =>
      if k0 = k then (k0, v) :: rest else (k0, v0) :: setK rest k v

/-- Association-list deletion (Python `del m[k]`). -/
def delK {β : Type} : List (Nat × β) → Nat → List (Nat × β)
  | [], _ => []
  | (k0, v0) :: rest, k =>
      if k0 = k then delK rest k else (k0, v0) :: delK rest k

/-- A request maps volume-type identifiers to requested ROIs. -/
abbrev Req : Type := List (Nat × Roi)

/-- The node's configuration: the `volume_factors` dictionary as a list of
(input volume-type, factor, output volume-type) triples. -/
abbrev Config : Type := List (Nat × Factor × Nat)

/-- Translated from the source (`DownSample.prepare`, one loop iteration):
if the pair's output type is in the request, compute the center-preserving
scaled ROI of the requested output ROI, merge it into the entry for the
input type (union with an existing entry, fresh insertion otherwise), and
delete the output type's entry; otherwise leave the request unchanged. -/
def prepareStep (r : Req) (p : Nat × Factor × Nat) : Req :=
  match lookupK r p.2.2 with
  | none => r
  | some requestRoi =>
      let scaled := scaleRoi requestRoi p.2.1
      let merged :=
        match lookupK r p.1 with
        | some existing => roiUnion existing scaled
        | none => scaled
      delK (setK r p.1 merged) p.2.2

/-- Translated from the source (`DownSample.prepare`): fold the per-pair
step over the configured pairs, mutating the request in order. -/
def prepare (cfg : Config) (r : Req) : Req :=
  match cfg with
  | [] => r
  | p :: rest => prepare rest (prepareStep r p)

/-- A dense multi-dimensional array: its shape and a value function on
integer index vectors (only indices within the shape are meaningful). -/
structure NDArray where
  shape : List Int
  val : List Int → Int

/-- A materialized volume: array data, the ROI the data spans, and the
physical resolution of one cell per dimension. -/
structure Volume where
  data : NDArray
  roi : Roi
  resolution : List Int

/-- A batch maps volume-type identifiers to materialized volumes. -/
abbrev Batch : Type := List (Nat × Volume)

/-- Extent of the numpy basic slice `start:stop` on an axis of length `n`:
both bounds are clamped into `[0, n]` and a reversed range is empty. -/
def clampLen (st sp n : Int) : Int :=
  max 0 (max 0 (min sp n) - max 0 (min st n))

/-- Per-dimension slice extents of a multi-dimensional `start:stop` slice. -/
def cropShape : List Int → List Int → List Int → List Int
  | st :: sts, sp :: sps, n :: ns => clampLen st sp n :: cropShape sts sps ns
  | _, _, _ => []

/-- Numpy basic slicing `a[start:stop]` per dimension: the value at index
`i` of the slice is the value at `i + start` of the original array. -/
def cropArr (a : NDArray) (start stop : List Int) : NDArray :=
  { shape := cropShape start stop a.shape,
    val := fun idx => a.val (cAdd idx start) }

/-- Length of the numpy stride slice `::k` on an axis of length `n` for a
positive step `k`: the ceiling of `n / k`. -/
def ceilDiv (n k : Int) : Int := Int.fdiv (n + k - 1) k

/-- Numpy stride slicing `a[::f]` per dimension: element `i` of the result
is element `i * f` of the input. -/
def strideArr (a : NDArray) (f : List Int) : NDArray :=
  { shape := List.zipWith (fun n k => ceilDiv n k) a.shape f,
    val := fun idx => a.val (cMulV idx f) }

/-- Translated from the source: the per-dimension step list used for the
stride slice — a tuple factor is used as is, a scalar factor is repeated
`input_roi.dims()` times. -/
def factorList : Factor → Nat → List Int
  | Factor.uniform k, d => List.replicate d k
  | Factor.perdim ks, _ => ks

/-- Translated from the source (`DownSample.process`, downsampling part of
one loop iteration): crop the input volume's data to the window
`scaleRoi requested f` (expressed relative to the input volume's ROI),
stride it by the factor, and package the result as a volume with the
requested ROI and the input resolution multiplied by the factor. -/
def downsampledVolume (iv : Volume) (requestRoi : Roi) (f : Factor) : Volume :=
  let scaled := scaleRoi requestRoi f
  let start := cSub scaled.offset iv.roi.offset
  let window := cropArr iv.data start (cAdd start scaled.shape)
  { data := strideArr window (factorList f iv.roi.offset.length),
    roi := requestRoi,
    resolution := cMulF iv.resolution f }

/-- The failure kinds `process` can raise: a missing dictionary key, the
containment assertions, and the output-shape assertion. -/
inductive DsError where
  | keyError
  | containmentViolation
  | shapeMismatch
deriving DecidableEq

/-- Translated from the source (`DownSample.process`, first loop, one
iteration): skip pairs whose output type is not requested; re-derive the
scaled ROI; fail if the input volume is missing from the batch or its ROI
does not contain the scaled ROI; crop and stride the data; fail if the
resulting shape differs from the requested shape; otherwise store the
downsampled volume under the output type. -/
def processStep (req : Req) (b : Batch) (p : Nat × Factor × Nat) :
    Except DsError Batch :=
  match lookupK req p.2.2 with
  | none => Except.ok b
  | some requestRoi =>
      match lookupK b p.1 with
      | none => Except.error DsError.keyError
      | some iv =>
          if roiContains iv.roi (scaleRoi requestRoi p.2.1) then
            let dv := downsampledVolume iv requestRoi p.2.1
            if dv.data.shape = requestRoi.shape then
              Except.ok (setK b p.2.2 dv)
            else Except.error DsError.shapeMismatch
          else Except.error DsError.containmentViolation

/-- Translated from the source (`DownSample.process`, second loop, one
iteration): skip pairs whose input type is absent from the batch; look up
the ROI requested for the input type (a missing key is a lookup failure);
if the volume's ROI already equals it, leave the volume alone; otherwise
assert containment and crop the volume down to the requested ROI, keeping
its resolution. -/
def restoreStep (req : Req) (b : Batch) (p : Nat × Factor × Nat) :
    Except DsError Batch :=
  match lookupK b p.1 with
  | none => Except.ok b
  | some iv =>
      match lookupK req p.1 with
      | none => Except.error DsError.keyError
      | some requestRoi =>
          if iv.roi = requestRoi then Except.ok b
          else if roiContains iv.roi requestRoi then
            let start := cSub requestRoi.offset iv.roi.offset
            Except.ok (setK b p.1
              { data := cropArr iv.data start (cAdd start requestRoi.shape),
                roi := requestRoi,
                resolution := iv.resolution })
          else Except.error DsError.containmentViolation

/-- A left fold of a fallible step over a list, stopping at the first
failure — the shape of both loops of `DownSample.process`. -/
def foldE {α : Type} (f : Batch → α → Except DsError Batch) :
    Batch → List α → Except DsError Batch
  | b, [] => Except.ok b
  | b, x :: rest =>
      match f b x with
      | Except.error e => Except.error e
      | Except.ok b2 => foldE f b2 rest

/-- Translated from the source: the first loop of `DownSample.process`
(produce all requested downsampled volumes). -/
def processFirst (cfg : Config) (req : Req) (b : Batch) : Except DsError Batch :=
  foldE (processStep req) b cfg

/-- Translated from the source: the second loop of `DownSample.process`
(restore the requested ROIs of the configured input volume-types). -/
def processRestore (cfg : Config) (req : Req) (b : Batch) : Except DsError Batch :=
  foldE (restoreStep req) b cfg

/-- Translated from the source (`DownSample.process`): the downsampling
loop followed by the ROI-restoring loop over the same configured pairs. -/
def process (cfg : Config) (req : Req) (b : Batch) : Except DsError Batch :=
  match processFirst cfg req b with
  | Except.error e => Except.error e
  | Except.ok b2 => processRestore cfg req b2

/-- Payload of a successful `process` result (a placeholder otherwise). -/
def extractOk (e : Except DsError Batch) : Batch :=
  match e with
  | Except.ok b => b
  | Except.error _ => []

/-- Payload of a successful batch lookup (a placeholder volume otherwise). -/
def extractVol (o : Option Volume) : Volume :=
  match o with
  | some v => v
  | none => { data := { shape := [], val := fun _ => 0 },
              roi := { offset := [], shape := [] },
              resolution := [] }

/-- The configuration of the spec's worked scenario: downsample input
volume-type `0` ("A") by factor `2` into output volume-type `1` ("B"). -/
def c1cfg : Config := [(0, Factor.uniform 2, 1)]

/-- The request of the spec's worked scenario: `B` over a `4×4×4` box at
the origin. -/
def c1req : Req := [(1, Roi.mk [0, 0, 0] [4, 4, 4])]

/-- A batch answering the prepared upstream request of the worked scenario:
volume-type `0` materialized exactly on the center-preserving scaled ROI,
with resolution `(3, 3, 3)`. -/
def c1batch : Batch :=
  [(0, { data := { shape := [8, 8, 8], val := fun idx => idx.headI },
         roi := Roi.mk [-2, -2, -2] [8, 8, 8],
         resolution := [3, 3, 3] })]

/-- The batch after the downsampling loop of the worked scenario. -/
def c1mid : Batch := extractOk (processFirst c1cfg c1req c1batch)

/-- The output volume the downsampling loop stores under volume-type `1`
in the worked scenario. -/
def c1out : Volume := extractVol (lookupK c1mid 1)

/-- Dimensional compatibility of a factor with a dimensionality: a scalar
factor fits any dimensionality, a vector factor must have one entry per
dimension. -/
def factorOK : Factor → Nat → Prop
  | Factor.uniform _, _ => True
  | Factor.perdim ks, d => ks.length = d

/-- Positivity of a downsampling factor. -/
def factorPos : Factor → Prop
  | Factor.uniform k => 0 < k
  | Factor.perdim ks => ∀ x ∈ ks, 0 < x

/-- Request with two output types sharing the input type `0`. -/
def c8req : Req := [(1, Roi.mk [0] [4]), (2, Roi.mk [2] [6])]

/-- A chained configuration: type `1` is the output of the first pair and
the input of the second. -/
def c9cfg : Config := [(0, Factor.uniform 2, 1), (1, Factor.uniform 2, 2)]

/-- A request for the final output of the chained configuration. -/
def c9req : Req := [(2, Roi.mk [0] [4])]

/-- The input volume-types of a configuration, in order. -/
def inputsOf : Config → List Nat
  | [] => []
  | p :: rest => p.1 :: inputsOf rest

/-- One-dimensional request asking for output type `1` over `[0, 2)`. -/
def c5req : Req := [(1, Roi.mk [0] [2])]

/-- A well-formed input volume on `[-1, 3)` whose data holds its local
index, so strided reads can be traced back to source positions. -/
def c5vol : Volume :=
  { data := { shape := [4], val := fun idx => idx.headI },
    roi := Roi.mk [-1] [4],
    resolution := [5] }

/-- Batch holding `c5vol` under the input type `0`. -/
def c5batch : Batch := [(0, c5vol)]

/-- One-dimensional request asking for output type `1` over `[0, 4)`. -/
def c6req : Req := [(1, Roi.mk [0] [4])]

/-- An ill-formed input volume whose ROI claims `[-2, 6)` (8 cells) while
its data array holds only 4 cells: the containment check on ROIs passes
but numpy slicing returns a short window, tripping the shape assertion. -/
def c6vol : Volume :=
  { data := { shape := [4], val := fun _ => 0 },
    roi := Roi.mk [-2] [8],
    resolution := [1] }

/-- Batch holding `c6vol` under the input type `0`. -/
def c6batch : Batch := [(0, c6vol)]

/-- One-dimensional request asking for output type `1` over `[0, 4)`,
used for the containment-violation run. -/
def c7req : Req := [(1, Roi.mk [0] [4])]

/-- An input volume materialized only on `[0, 4)`, smaller than the scaled
window `[-2, 6)` that a factor-2 downsampling of `[0, 4)` needs. -/
def c7vol : Volume :=
  { data := { shape := [4], val := fun _ => 0 },
    roi := Roi.mk [0] [4],
    resolution := [1] }

/-- Batch holding `c7vol` under the input type `0`. -/
def c7batch : Batch := [(0, c7vol)]

/-- Configuration for the end-to-end restore run: factor 2 from input type
`0` to output type `1`. -/
def c2cfg : Config := [(0, Factor.uniform 2, 1)]

/-- Request asking for both the downsampled output and the raw input. -/
def c2req : Req := [(1, Roi.mk [0] [4]), (0, Roi.mk [0] [4])]

/-- Batch answering the prepared upstream request: the input volume covers
the union of the raw request and the scaled window. -/
def c2batch : Batch :=
  [(0, { data := { shape := [8], val := fun idx => idx.headI },
         roi := Roi.mk [-2] [8],
         resolution := [1] })]

/-- The batch a successful end-to-end `process` run produces. -/
def c2res : Batch := extractOk (process c2cfg c2req c2batch)

/-- The input volume as it appears in the batch after the restore pass. -/
def c2vol : Volume := extractVol (lookupK c2res 0)

theorem lookupK_setK_self {β : Type} (m : List (Nat × β)) (k : Nat) (v : β) :
    lookupK (setK m k v) k = some v := by
  induction m with
  | nil => simp [setK, lookupK]
  | cons hd tl ih =>
      obtain ⟨k0, v0⟩ := hd
      by_cases h : k0 = k <;> simp [setK, lookupK, h, ih]

theorem lookupK_setK_ne {β : Type} (m : List (Nat × β)) (k k' : Nat) (v : β)
    (h : k' ≠ k) : lookupK (setK m k v) k' = lookupK m k' := by
  have h2 : k ≠ k' := Ne.symm h
  induction m with
  | nil => simp [setK, lookupK, h2]
  | cons hd tl ih =>
      obtain ⟨k0, v0⟩ := hd
      by_cases h0 : k0 = k
      · subst h0
        simp [setK, lookupK, h2]
      · simp [setK, lookupK, h0]
        by_cases h1 : k0 = k' <;> simp [h1, ih]

theorem lookupK_delK_self {β : Type} (m : List (Nat × β)) (k : Nat) :
    lookupK (delK m k) k = none := by
  induction m with
  | nil => simp [delK, lookupK]
  | cons hd tl ih =>
      obtain ⟨k0, v0⟩ := hd
      by_cases h : k0 = k <;> simp [delK, lookupK, h, ih]

theorem lookupK_delK_ne {β : Type} (m : List (Nat × β)) (k k' : Nat)
    (h : k' ≠ k) : lookupK (delK m k) k' = lookupK m k' := by
  have h2 : k ≠ k' := Ne.symm h
  induction m with
  | nil => simp [delK, lookupK]
  | cons hd tl ih =>
      obtain ⟨k0, v0⟩ := hd
      by_cases h0 : k0 = k
      · subst h0
        simp [delK, lookupK, h2, ih]
      · simp [delK, lookupK, h0]
        by_cases h1 : k0 = k' <;> simp [h1, ih]

theorem zipWith_comm_of_comm (f : Int → Int → Int)
    (hf : ∀ x y, f x y = f y x) :
    ∀ xs ys : List Int, List.zipWith f xs ys = List.zipWith f ys xs := by
  intro xs
  induction xs with
  | nil => intro ys; cases ys <;> simp
  | cons x xs ih =>
      intro ys
      cases ys with
      | nil => simp
      | cons y ys => simp [hf, ih]

theorem roiUnion_comm (a b : Roi) : roiUnion a b = roiUnion b a := by
  simp [roiUnion]
  constructor
  · exact zipWith_comm_of_comm _ (fun x y => min_comm x y) _ _
  · simp [cSub]
    rw [zipWith_comm_of_comm _ (fun x y => min_comm x y) a.offset b.offset,
      zipWith_comm_of_comm _ (fun x y => max_comm x y) (roiEnd a) (roiEnd b)]

theorem centerCancel :
    ∀ a b c : List Int, a.length = b.length → b.length = c.length →
      cAdd (cSub a (cSub (cAdd a b) c)) b = c := by
  intro a
  induction a with
  | nil =>
      intro b c hab hbc
      cases b <;> cases c <;> simp_all [cAdd, cSub]
  | cons x xs ih =>
      intro b c hab hbc
      cases b with
      | nil => simp at hab
      | cons y ys =>
          cases c with
          | nil => simp at hbc
          | cons z zs =>
              simp only [cAdd, cSub, List.zipWith] at ih ⊢
              simp only [List.cons.injEq]
              exact ⟨by omega, ih ys zs (by simpa using hab) (by simpa using hbc)⟩

/-- C4: for every ROI `r` (offset and shape of equal dimensionality) and
every positive integer factor `f` (uniform, or per-dimension of matching
length), the center of the center-preserving scaled ROI equals the center
of `r`, where the center is the deterministic integer computation
`offset + shape/2`. -/
theorem scaleRoi_preserves_center (r : Roi) (f : Factor)
    (hwf : r.offset.length = r.shape.length)
    (hdim : factorOK f r.shape.length)
    (hpos : factorPos f) :
    getCenter (scaleRoi r f) = getCenter r := by
  have hlo : (cMulF r.offset f).length = r.shape.length := by
    cases f with
    | uniform k => simp [cMulF, hwf]
    | perdim ks =>
        simp only [factorOK] at hdim
        simp [cMulF, cMulV, List.length_zipWith, hwf, hdim]
  have hls : (cHalf (cMulF r.shape f)).length = r.shape.length := by
    cases f with
    | uniform k => simp [cHalf, cMulF]
    | perdim ks =>
        simp only [factorOK] at hdim
        simp [cHalf, cMulF, cMulV, List.length_zipWith, hdim]
  have hlp : (getCenter r).length = r.shape.length := by
    simp [getCenter, cAdd, cHalf, List.length_zipWith, hwf]
  have key := centerCancel (cMulF r.offset f) (cHalf (cMulF r.shape f))
    (getCenter r) (by rw [hlo, hls]) (by rw [hls, hlp])
  simp only [scaleRoi, roiShiftNeg, roiMul, getCenter] at key ⊢
  exact key

/-- Witness for C4 at a concrete three-dimensional ROI and a
per-dimension factor. -/
theorem scaleRoi_preserves_center_witness :
    getCenter (scaleRoi (Roi.mk [0, 1, 2] [4, 5, 6]) (Factor.perdim [2, 3, 1]))
      = getCenter (Roi.mk [0, 1, 2] [4, 5, 6]) :=
  scaleRoi_preserves_center (Roi.mk [0, 1, 2] [4, 5, 6]) (Factor.perdim [2, 3, 1])
    rfl rfl (by decide : ∀ x ∈ ([2, 3, 1] : List Int), 0 < x)

/-- C3: for a configured pair `(i, f, o)` with distinct input and output
types, `prepare` on a request containing the output type sets the entry of
the input type to the union of any existing entry with the
center-preserving scaled output ROI (or to that scaled ROI when the input
type is absent), removes the output type's entry, and leaves every other
entry unchanged; when the output type is absent the request is unchanged. -/
theorem prepare_pair_spec (r : Req) (i : Nat) (f : Factor) (o : Nat)
    (hio : i ≠ o) :
    (lookupK r o = none → prepare [(i, f, o)] r = r) ∧
    (∀ rroi, lookupK r o = some rroi →
      lookupK (prepare [(i, f, o)] r) i =
        some (match lookupK r i with
              | some existing => roiUnion existing (scaleRoi rroi f)
              | none => scaleRoi rroi f) ∧
      lookupK (prepare [(i, f, o)] r) o = none ∧
      ∀ k, k ≠ i → k ≠ o → lookupK (prepare [(i, f, o)] r) k = lookupK r k) := by
  constructor
  · intro h
    show prepareStep r (i, f, o) = r
    simp [prepareStep, h]
  · intro rroi h
    have hstep : prepare [(i, f, o)] r =
        delK (setK r i (match lookupK r i with
                        | some existing => roiUnion existing (scaleRoi rroi f)
                        | none => scaleRoi rroi f)) o := by
      show prepareStep r (i, f, o) = _
      simp only [prepareStep, h]
    refine ⟨?_, ?_, ?_⟩
    · rw [hstep, lookupK_delK_ne _ _ _ hio, lookupK_setK_self]
    · rw [hstep, lookupK_delK_self]
    · intro k hki hko
      rw [hstep, lookupK_delK_ne _ _ _ hko, lookupK_setK_ne _ _ _ _ hki]

/-- Witness for C3 on the worked scenario's request: the input type gets
the freshly scaled ROI and the output entry is removed. -/
theorem prepare_pair_spec_witness :
    lookupK (prepare [(0, Factor.uniform 2, 1)] c1req) 0
        = some (scaleRoi (Roi.mk [0, 0, 0] [4, 4, 4]) (Factor.uniform 2)) ∧
    lookupK (prepare [(0, Factor.uniform 2, 1)] c1req) 1 = none := by
  have h := (prepare_pair_spec c1req 0 (Factor.uniform 2) 1 (by decide)).2
    (Roi.mk [0, 0, 0] [4, 4, 4]) rfl
  exact ⟨h.1, h.2.1⟩

/-- C8: when two configured pairs with distinct output types share the same
input type, both outputs are requested, and the input type is not yet in
the request, `prepare` leaves the input type's entry equal to the union of
the two individually scaled ROIs, in either processing order. -/
theorem prepare_shared_input_union (r : Req) (i o1 o2 : Nat)
    (f1 f2 : Factor) (r1 r2 : Roi)
    (hi : lookupK r i = none)
    (h1 : lookupK r o1 = some r1)
    (h2 : lookupK r o2 = some r2)
    (ho : o1 ≠ o2) :
    lookupK (prepare [(i, f1, o1), (i, f2, o2)] r) i
        = some (roiUnion (scaleRoi r1 f1) (scaleRoi r2 f2)) ∧
    lookupK (prepare [(i, f2, o2), (i, f1, o1)] r) i
        = some (roiUnion (scaleRoi r1 f1) (scaleRoi r2 f2)) := by
  have hio1 : i ≠ o1 := by
    intro he; rw [he, h1] at hi; exact Option.noConfusion hi
  have hio2 : i ≠ o2 := by
    intro he; rw [he, h2] at hi; exact Option.noConfusion hi
  constructor
  · have e1 : prepareStep r (i, f1, o1) = delK (setK r i (scaleRoi r1 f1)) o1 := by
      simp only [prepareStep, h1, hi]
    have e2 : lookupK (prepareStep r (i, f1, o1)) o2 = some r2 := by
      rw [e1, lookupK_delK_ne _ _ _ (Ne.symm ho),
        lookupK_setK_ne _ _ _ _ (Ne.symm hio2), h2]
    have e3 : lookupK (prepareStep r (i, f1, o1)) i = some (scaleRoi r1 f1) := by
      rw [e1, lookupK_delK_ne _ _ _ hio1, lookupK_setK_self]
    show lookupK (prepareStep (prepareStep r (i, f1, o1)) (i, f2, o2)) i = _
    simp only [prepareStep] at e2 e3 ⊢
    simp only [e2, e3]
    rw [lookupK_delK_ne _ _ _ hio2, lookupK_setK_self]
  · have e1 : prepareStep r (i, f2, o2) = delK (setK r i (scaleRoi r2 f2)) o2 := by
      simp only [prepareStep, h2, hi]
    have e2 : lookupK (prepareStep r (i, f2, o2)) o1 = some r1 := by
      rw [e1, lookupK_delK_ne _ _ _ ho,
        lookupK_setK_ne _ _ _ _ (Ne.symm hio1), h1]
    have e3 : lookupK (prepareStep r (i, f2, o2)) i = some (scaleRoi r2 f2) := by
      rw [e1, lookupK_delK_ne _ _ _ hio2, lookupK_setK_self]
    show lookupK (prepareStep (prepareStep r (i, f2, o2)) (i, f1, o1)) i = _
    simp only [prepareStep] at e2 e3 ⊢
    simp only [e2, e3]
    rw [lookupK_delK_ne _ _ _ hio1, lookupK_setK_self, roiUnion_comm]

/-- Witness for C8 with factors 2 and 3 over two overlapping requests
sharing input type `0`. -/
theorem prepare_shared_input_union_witness :
    lookupK (prepare [(0, Factor.uniform 2, 1), (0, Factor.uniform 3, 2)] c8req) 0
      = some (roiUnion (scaleRoi (Roi.mk [0] [4]) (Factor.uniform 2))
          (scaleRoi (Roi.mk [2] [6]) (Factor.uniform 3))) :=
  (prepare_shared_input_union c8req 0 1 2 (Factor.uniform 2) (Factor.uniform 3)
    (Roi.mk [0] [4]) (Roi.mk [2] [6]) rfl rfl rfl (by decide)).1

theorem prepare_keeps_absent (cfg : Config) (k : Nat) :
    k ∉ inputsOf cfg → ∀ r : Req, lookupK r k = none →
      lookupK (prepare cfg r) k = none := by
  induction cfg with
  | nil => intro _ r hk; simpa [prepare] using hk
  | cons p rest ih =>
      intro hin r hk
      have hin2 : k ∉ inputsOf rest := by
        intro h; exact hin (by simp [inputsOf]; exact Or.inr h)
      have hki : k ≠ p.1 := by
        intro he; exact hin (by simp [inputsOf, he])
      refine ih hin2 (prepareStep r p) ?_
      cases hp : lookupK r p.2.2 with
      | none => simpa [prepareStep, hp] using hk
      | some rr =>
          by_cases hko : k = p.2.2
          · subst hko; simp [prepareStep, hp, lookupK_delK_self]
          · simp only [prepareStep, hp]
            rw [lookupK_delK_ne _ _ _ hko, lookupK_setK_ne _ _ _ _ hki, hk]

theorem prepare_outputs_absent (cfg : Config) :
    (∀ p ∈ cfg, p.2.2 ∉ inputsOf cfg) →
    ∀ r : Req, ∀ p ∈ cfg, lookupK (prepare cfg r) p.2.2 = none := by
  induction cfg with
  | nil => intro _ r p hp; simp at hp
  | cons q rest ih =>
      intro H r p hp
      rcases List.mem_cons.mp hp with rfl | hp2
      · have Hq : p.2.2 ∉ inputsOf (p :: rest) := H p (List.mem_cons_self p rest)
        have hin2 : p.2.2 ∉ inputsOf rest := by
          intro h; exact Hq (by simp [inputsOf]; exact Or.inr h)
        refine prepare_keeps_absent rest p.2.2 hin2 (prepareStep r p) ?_
        cases hq : lookupK r p.2.2 with
        | none => simp [prepareStep, hq]
        | some rr => simp [prepareStep, hq, lookupK_delK_self]
      · have H2 : ∀ p2 ∈ rest, p2.2.2 ∉ inputsOf rest := by
          intro p2 hp3 h
          exact H p2 (List.mem_cons_of_mem q hp3) (by simp [inputsOf]; exact Or.inr h)
        exact ih H2 (prepareStep r q) p hp2

theorem prepare_noop (cfg : Config) :
    ∀ r : Req, (∀ p ∈ cfg, lookupK r p.2.2 = none) → prepare cfg r = r := by
  induction cfg with
  | nil => intro r _; rfl
  | cons q rest ih =>
      intro r H
      have hq := H q (List.mem_cons_self q rest)
      show prepare rest (prepareStep r q) = r
      have hstep : prepareStep r q = r := by simp [prepareStep, hq]
      rw [hstep]
      exact ih r (fun p hp => H p (List.mem_cons_of_mem q hp))

/-- C9 counterexample: with the chained configuration `{0 ↦ (2, 1), 1 ↦ (2, 2)}`
and the request `{2 ↦ Roi([0], [4])}`, a second `prepare` call mutates the
request again (the first call inserts type `1`, which the second call then
consumes), so `prepare` is not idempotent as claimed. -/
theorem prepare_not_idempotent :
    prepare c9cfg (prepare c9cfg c9req) ≠ prepare c9cfg c9req := by decide

/-- C9 amended: provided no configured pair's output volume-type is also a
configured pair's input volume-type, a second `prepare` call on the request
mutated by a first call performs no further mutation. -/
theorem prepare_idempotent_of_disjoint (cfg : Config) (r : Req)
    (H : ∀ p ∈ cfg, p.2.2 ∉ inputsOf cfg) :
    prepare cfg (prepare cfg r) = prepare cfg r :=
  prepare_noop cfg (prepare cfg r)
    (fun p hp => prepare_outputs_absent cfg H r p hp)

/-- Witness for the amended C9 on the worked scenario's configuration and
request. -/
theorem prepare_idempotent_of_disjoint_witness :
    prepare c1cfg (prepare c1cfg c1req) = prepare c1cfg c1req :=
  prepare_idempotent_of_disjoint c1cfg c1req (by decide)

/-- C1 counterexample: in the spec's worked scenario (factor 2 from type
`0` to type `1`, request `{1 ↦ Roi([0,0,0], [4,4,4])}`), `prepare` maps
type `0` to `Roi([-2,-2,-2], [8,8,8])` — offset `(-2,-2,-2)`, not the
claimed `(-1,-1,-1)` (only `-2` keeps the center at `(2,2,2)`) — and the
full `process` call fails with a key lookup error in the restore pass,
because its second loop reads `request[0]` while type `0` is not a key of
the request. -/
theorem c1_scenario_counterexample :
    lookupK (prepare c1cfg c1req) 0 ≠ some (Roi.mk [-1, -1, -1] [8, 8, 8]) ∧
    process c1cfg c1req c1batch = Except.error DsError.keyError :=
  ⟨by decide, rfl⟩

/-- C1 amended: `prepare` leaves the request equal to
`{0 ↦ Roi([-2,-2,-2], [8,8,8])}` (type `1` removed); given a batch whose
input volume covers that ROI, the downsampling loop of `process` stores
under type `1` a volume with ROI `Roi([0,0,0], [4,4,4])` and resolution
`original * 2`, but the full `process` call then fails with a key lookup
error in its restore pass, since the input type is not a key of the
request. -/
theorem c1_scenario_amended :
    prepare c1cfg c1req = [(0, Roi.mk [-2, -2, -2] [8, 8, 8])] ∧
    processFirst c1cfg c1req c1batch = Except.ok c1mid ∧
    lookupK c1mid 1 = some c1out ∧
    c1out.roi = Roi.mk [0, 0, 0] [4, 4, 4] ∧
    c1out.resolution = cMulF [3, 3, 3] (Factor.uniform 2) ∧
    process c1cfg c1req c1batch = Except.error DsError.keyError :=
  ⟨by decide, rfl, rfl, rfl, rfl, rfl⟩

/-- C7: when the requested output type and the input volume are both
present but the input volume's ROI does not contain the re-derived scaled
ROI, `processStep` fails with the containment violation before storing any
output volume. -/
theorem processStep_containment_guard (req : Req) (b : Batch) (i : Nat)
    (f : Factor) (o : Nat) (rroi : Roi) (iv : Volume)
    (hreq : lookupK req o = some rroi)
    (hb : lookupK b i = some iv)
    (hc : roiContains iv.roi (scaleRoi rroi f) = false) :
    processStep req b (i, f, o) = Except.error DsError.containmentViolation := by
  simp [processStep, hreq, hb, hc]

/-- Witness for C7: an input volume on `[0, 4)` cannot serve the scaled
window `[-2, 6)`. -/
theorem processStep_containment_guard_witness :
    processStep c7req c7batch (0, Factor.uniform 2, 1)
      = Except.error DsError.containmentViolation :=
  processStep_containment_guard c7req c7batch 0 (Factor.uniform 2) 1
    (Roi.mk [0] [4]) c7vol rfl rfl rfl

/-- C6: with the lookups succeeding and containment holding, `processStep`
succeeds exactly when the strided window's shape equals the requested
shape, and fails with the shape mismatch otherwise (no silent
truncation). -/
theorem processStep_shape_guard (req : Req) (b : Batch) (i : Nat)
    (f : Factor) (o : Nat) (rroi : Roi) (iv : Volume)
    (hreq : lookupK req o = some rroi)
    (hb : lookupK b i = some iv)
    (hc : roiContains iv.roi (scaleRoi rroi f) = true) :
    ((downsampledVolume iv rroi f).data.shape = rroi.shape →
      processStep req b (i, f, o)
        = Except.ok (setK b o (downsampledVolume iv rroi f))) ∧
    ((downsampledVolume iv rroi f).data.shape ≠ rroi.shape →
      processStep req b (i, f, o) = Except.error DsError.shapeMismatch) := by
  constructor <;> intro h <;> simp [processStep, hreq, hb, hc, h]

/-- Witness for C6: an input volume whose data array is shorter than its
declared ROI makes the strided window come out with 2 cells instead of
the requested 4, and `processStep` reports the shape mismatch. -/
theorem processStep_shape_guard_witness :
    processStep c6req c6batch (0, Factor.uniform 2, 1)
      = Except.error DsError.shapeMismatch :=
  (processStep_shape_guard c6req c6batch 0 (Factor.uniform 2) 1
    (Roi.mk [0] [4]) c6vol rfl rfl rfl).2 (by decide)

/-- C5: with the lookups succeeding, containment holding and the shape
assertion passing, `processStep` stores under the output type the volume
obtained by cropping the input data to the re-derived window
`scaleRoi requested f` and striding it by the factor; that volume's ROI is
the requested ROI, its resolution is the input resolution times the
factor, and element `idx` of its data is the input element at
`idx * factor + (scaled.offset - input.offset)` — every `factor[d]`-th
cell of the window along each dimension `d`, starting at its origin. -/
theorem processStep_output_spec (req : Req) (b : Batch) (i : Nat)
    (f : Factor) (o : Nat) (rroi : Roi) (iv : Volume)
    (hreq : lookupK req o = some rroi)
    (hb : lookupK b i = some iv)
    (hc : roiContains iv.roi (scaleRoi rroi f) = true)
    (hshape : (downsampledVolume iv rroi f).data.shape = rroi.shape) :
    processStep req b (i, f, o)
        = Except.ok (setK b o (downsampledVolume iv rroi f)) ∧
    lookupK (setK b o (downsampledVolume iv rroi f)) o
        = some (downsampledVolume iv rroi f) ∧
    (downsampledVolume iv rroi f).roi = rroi ∧
    (downsampledVolume iv rroi f).resolution = cMulF iv.resolution f ∧
    ∀ idx, (downsampledVolume iv rroi f).data.val idx =
      iv.data.val (cAdd (cMulV idx (factorList f iv.roi.offset.length))
        (cSub (scaleRoi rroi f).offset iv.roi.offset)) :=
  ⟨by simp [processStep, hreq, hb, hc, hshape],
   lookupK_setK_self _ _ _, rfl, rfl, fun idx => rfl⟩

/-- Witness for C5 on a one-dimensional run with factor 2: the output
volume carries the requested ROI, the doubled resolution, and its cell 1
reads the input cell at local index 2 of the scaled window. -/
theorem processStep_output_spec_witness :
    processStep c5req c5batch (0, Factor.uniform 2, 1)
        = Except.ok (setK c5batch 1
            (downsampledVolume c5vol (Roi.mk [0] [2]) (Factor.uniform 2))) ∧
    (downsampledVolume c5vol (Roi.mk [0] [2]) (Factor.uniform 2)).roi
        = Roi.mk [0] [2] ∧
    (downsampledVolume c5vol (Roi.mk [0] [2]) (Factor.uniform 2)).resolution
        = cMulF c5vol.resolution (Factor.uniform 2) ∧
    (downsampledVolume c5vol (Roi.mk [0] [2]) (Factor.uniform 2)).data.val [1]
        = c5vol.data.val
            (cAdd (cMulV [1] (factorList (Factor.uniform 2) c5vol.roi.offset.length))
              (cSub (scaleRoi (Roi.mk [0] [2]) (Factor.uniform 2)).offset
                c5vol.roi.offset)) := by
  have h := processStep_output_spec c5req c5batch 0 (Factor.uniform 2) 1
    (Roi.mk [0] [2]) c5vol rfl rfl rfl rfl
  exact ⟨h.1, h.2.2.1, h.2.2.2.1, h.2.2.2.2 [1]⟩

/-- C10: when a configured input type is present in the batch but absent
from the request, the restore step fails with a key lookup error instead
of leaving the volume unchanged — it only guards on the input type's
presence in the batch, not in the request. -/
theorem restoreStep_missing_request_key (req : Req) (b : Batch) (i : Nat)
    (f : Factor) (o : Nat) (iv : Volume)
    (hb : lookupK b i = some iv)
    (hreq : lookupK req i = none) :
    restoreStep req b (i, f, o) = Except.error DsError.keyError := by
  simp [restoreStep, hb, hreq]

/-- Witness for C10: an empty request against a batch holding the input
type. -/
theorem restoreStep_missing_request_key_witness :
    restoreStep [] c7batch (0, Factor.uniform 2, 1)
      = Except.error DsError.keyError :=
  restoreStep_missing_request_key [] c7batch 0 (Factor.uniform 2) 1
    c7vol rfl rfl

theorem restoreStep_ok_other (req : Req) (b b2 : Batch)
    (p : Nat × Factor × Nat) (h : restoreStep req b p = Except.ok b2) :
    ∀ k, k ≠ p.1 → lookupK b2 k = lookupK b k := by
  intro k hk
  cases hb : lookupK b p.1 with
  | none =>
      simp only [restoreStep, hb, Except.ok.injEq] at h
      rw [h]
  | some iv =>
      cases hreq : lookupK req p.1 with
      | none =>
          simp only [restoreStep, hb, hreq] at h
          exact Except.noConfusion h
      | some rroi =>
          by_cases he : iv.roi = rroi
          · simp only [restoreStep, hb, hreq, if_pos he, Except.ok.injEq] at h
            rw [h]
          · by_cases hc : roiContains iv.roi rroi = true
            · simp only [restoreStep, hb, hreq, if_neg he, hc, if_true,
                Except.ok.injEq] at h
              rw [← h, lookupK_setK_ne _ _ _ _ hk]
            · simp only [restoreStep, hb, hreq, if_neg he] at h
              rw [Bool.not_eq_true] at hc
              rw [hc] at h
              simp only [Bool.false_eq_true, if_false] at h
              exact Except.noConfusion h

theorem restoreStep_ok_self (req : Req) (b b2 : Batch)
    (p : Nat × Factor × Nat) (h : restoreStep req b p = Except.ok b2) :
    ∀ v : Volume, lookupK b2 p.1 = some v → lookupK req p.1 = some v.roi := by
  intro v hv
  cases hb : lookupK b p.1 with
  | none =>
      simp only [restoreStep, hb, Except.ok.injEq] at h
      rw [← h, hb] at hv
      exact Option.noConfusion hv
  | some iv =>
      cases hreq : lookupK req p.1 with
      | none =>
          simp only [restoreStep, hb, hreq] at h
          exact Except.noConfusion h
      | some rroi =>
          by_cases he : iv.roi = rroi
          · simp only [restoreStep, hb, hreq, if_pos he, Except.ok.injEq] at h
            rw [← h, hb] at hv
            have hiv : iv = v := Option.some.inj hv
            rw [← he, hiv]
          · by_cases hc : roiContains iv.roi rroi = true
            · simp only [restoreStep, hb, hreq, if_neg he, hc, if_true,
                Except.ok.injEq] at h
              rw [← h, lookupK_setK_self] at hv
              have hva := Option.some.inj hv
              rw [← hva]
            · simp only [restoreStep, hb, hreq, if_neg he] at h
              rw [Bool.not_eq_true] at hc
              rw [hc] at h
              simp only [Bool.false_eq_true, if_false] at h
              exact Except.noConfusion h

theorem processRestore_preserves (cfg : Config) :
    ∀ (req : Req) (b b2 : Batch), processRestore cfg req b = Except.ok b2 →
      ∀ k : Nat, (∀ v : Volume, lookupK b k = some v → lookupK req k = some v.roi) →
        ∀ v : Volume, lookupK b2 k = some v → lookupK req k = some v.roi := by
  induction cfg with
  | nil =>
      intro req b b2 h k hk v hv
      simp only [processRestore, foldE, Except.ok.injEq] at h
      rw [← h] at hv
      exact hk v hv
  | cons q rest ih =>
      intro req b b2 h k hk v hv
      cases hstep : restoreStep req b q with
      | error e =>
          simp only [processRestore, foldE, hstep] at h
          exact Except.noConfusion h
      | ok b1 =>
          simp only [processRestore, foldE, hstep] at h
          refine ih req b1 b2 h k ?_ v hv
          by_cases hkq : k = q.1
          · subst hkq
            exact fun v2 hv2 => restoreStep_ok_self req b b1 q hstep v2 hv2
          · intro v2 hv2
            rw [restoreStep_ok_other req b b1 q hstep k hkq] at hv2
            exact hk v2 hv2

theorem processRestore_restores (cfg : Config) :
    ∀ (req : Req) (b b2 : Batch), processRestore cfg req b = Except.ok b2 →
      ∀ p ∈ cfg, ∀ v : Volume, lookupK b2 p.1 = some v →
        lookupK req p.1 = some v.roi := by
  induction cfg with
  | nil => intro req b b2 h p hp; simp at hp
  | cons q rest ih =>
      intro req b b2 h p hp v hv
      cases hstep : restoreStep req b q with
      | error e =>
          simp only [processRestore, foldE, hstep] at h
          exact Except.noConfusion h
      | ok b1 =>
          simp only [processRestore, foldE, hstep] at h
          rcases List.mem_cons.mp hp with rfl | hp2
          · refine processRestore_preserves rest req b1 b2 h p.1 ?_ v hv
            exact fun v2 hv2 => restoreStep_ok_self req b b1 p hstep v2 hv2
          · exact ih req b1 b2 h p hp2 v hv

/-- C2: whenever `process` returns successfully, every configured input
volume-type that is present in the resulting batch has its volume's ROI
exactly equal to that type's entry in the request — the second (restore)
loop crops away any extra region fetched for downsampling, including when
one input type served several overlapping downstream requests. -/
theorem process_restores_requested_rois (cfg : Config) (req : Req)
    (b b2 : Batch) (h : process cfg req b = Except.ok b2) :
    ∀ p ∈ cfg, ∀ v : Volume, lookupK b2 p.1 = some v →
      lookupK req p.1 = some v.roi := by
  cases hf : processFirst cfg req b with
  | error e =>
      simp only [process, hf] at h
      exact Except.noConfusion h
  | ok bmid =>
      simp only [process, hf] at h
      exact processRestore_restores cfg req bmid b2 h

/-- Witness for C2: a full one-dimensional `process` run (request holding
both the raw and the downsampled type) after which the input volume's ROI
equals its request entry. -/
theorem process_restores_requested_rois_witness :
    lookupK c2req 0 = some c2vol.roi :=
  process_restores_requested_rois c2cfg c2req c2batch c2res rfl
    (0, Factor.uniform 2, 1) (by decide) c2vol rfl
